import Mathlib

/-!
# js-game: the game-loop core of `game.js`

A shallow embedding of the state and of the functions of `src/game.js`.

JavaScript numbers are idealised as elements of a linearly ordered field `K`
(exact arithmetic, no rounding, no `NaN`): the theorems hold for the reals and
the definitions can be evaluated over the rationals.  `Math.sqrt` is a
parameter `sqrt : K → K`; theorems that depend on its value assume that it is
a square root at the one argument the code passes to it (`IsSqrtAt`).
`Math.random()` and `Date.now()` are parameters of the functions that call
them, in the order in which the source calls them.

The fields `width`, `height` and `speed` of the objects `character` and
`fireball` are never assigned in the source; they are constants here.
-/

namespace Game

/-! ## Constants (game.js 4-16, 24-25) -/

/-- The constant `mapWidth` (game.js 24). -/
def mapWidth {K : Type} [LinearOrderedField K] : K := 2000

/-- The constant `mapHeight` (game.js 25). -/
def mapHeight {K : Type} [LinearOrderedField K] : K := 1500

/-- The field `character.width` (game.js 7). -/
def character.width {K : Type} [LinearOrderedField K] : K := 90

/-- The field `character.height` (game.js 8). -/
def character.height {K : Type} [LinearOrderedField K] : K := 90

/-- The field `character.speed` (game.js 9). -/
def character.speed {K : Type} [LinearOrderedField K] : K := 200

/-- The field `fireball.width` (game.js 13). -/
def fireball.width {K : Type} [LinearOrderedField K] : K := 50

/-- The field `fireball.height` (game.js 14). -/
def fireball.height {K : Type} [LinearOrderedField K] : K := 50

/-- The field `fireball.speed` (game.js 15). -/
def fireball.speed {K : Type} [LinearOrderedField K] : K := 300

/-! ## State (game.js 1-32) -/

/-- The mutable part of the object `character`: its position. -/
structure Character (K : Type) where
  x : K
  y : K
deriving DecidableEq, Repr

/-- An element of the array `fireballs`: the object pushed at game.js 188. -/
structure Fireball (K : Type) where
  x : K
  y : K
  dx : K
  dy : K
deriving DecidableEq, Repr

/-- The two fields of `canvas` that the game reads and writes. -/
structure Canvas (K : Type) where
  width : K
  height : K
deriving DecidableEq, Repr

/-- The global variables of game.js.  `lastTimestamp` is `none` while it is
`undefined`; `gameStartTime` and `score` are integers (milliseconds, seconds). -/
structure State (K : Type) where
  canvas : Canvas K
  character : Character K
  isMoving : Bool
  targetX : K
  targetY : K
  lastTimestamp : Option K
  fireballs : List (Fireball K)
  cameraX : K
  cameraY : K
  score : Int
  isGameOver : Bool
  gameStartTime : Int
deriving DecidableEq, Repr

/-- A keyboard event, as far as `handleKeyPress` reads it. -/
structure KeyboardEvent where
  key : String
  code : String
deriving DecidableEq, Repr

section Defs

variable {K : Type} [LinearOrderedField K]

/-- `sqrt` is a square root at `v`: its value there is non-negative and squares
to `v`. -/
def IsSqrtAt (sqrt : K → K) (v : K) : Prop :=
  0 ≤ sqrt v ∧ sqrt v * sqrt v = v

/-! ## Camera (game.js 43-48) -/

/-- `updateCamera` (game.js 43-48). -/
def updateCamera (s : State K) : State K :=
  let cameraX := s.character.x - s.canvas.width / 2
  let cameraY := s.character.y - s.canvas.height / 2
  let cameraX := max 0 (min cameraX (mapWidth - s.canvas.width))
  let cameraY := max 0 (min cameraY (mapHeight - s.canvas.height))
  { s with cameraX := cameraX, cameraY := cameraY }

/-! ## Reset (game.js 82-89) -/

/-- `resetGame` (game.js 82-89); `now` is the value of `Date.now()`. -/
def resetGame (now : Int) (s : State K) : State K :=
  { s with
    score := 0
    isGameOver := false
    gameStartTime := now
    character := { x := s.canvas.width / 2, y := s.canvas.height / 2 }
    fireballs := [] }

/-! ## Character motion (game.js 126-151) -/

/-- `moveCharacter` (game.js 126-151). -/
def moveCharacter (sqrt : K → K) (s : State K) (deltaTime : K) : State K :=
  if !s.isMoving then s
  else
    let deltaX := s.targetX - s.character.x
    let deltaY := s.targetY - s.character.y
    let distance := sqrt (deltaX * deltaX + deltaY * deltaY)
    if distance < 1 then
      { s with
        character := { x := s.targetX, y := s.targetY }
        isMoving := false }
    else
      let moveDistance := character.speed * deltaTime
      let ratio := moveDistance / distance
      let x := s.character.x + deltaX * ratio
      let y := s.character.y + deltaY * ratio
      let x := max 0 (min x (mapWidth - character.width))
      let y := max 0 (min y (mapHeight - character.height))
      { s with character := { x := x, y := y } }

/-! ## Projectiles (game.js 153-203) -/

/-- The `switch (side)` of `createFireball` (game.js 157-182): the values of
`x, y, dx, dy` after it, or `none` when no case matches and they stay
`undefined`.  `r1 r2 r3` are the three `Math.random()` draws of the chosen
case, in source order. -/
def spawn (side : Int) (r1 r2 r3 : K) : Option (K × K × K × K) :=
  match side with
  | 0 => some (r1 * mapWidth, -fireball.height, r2 * 2 - 1, r3 * (1 / 2) + 1 / 2)
  | 1 => some (mapWidth + fireball.width, r1 * mapHeight, -(r2 * (1 / 2) + 1 / 2), r3 * 2 - 1)
  | 2 => some (r1 * mapWidth, mapHeight + fireball.height, r2 * 2 - 1, -(r3 * (1 / 2) + 1 / 2))
  | 3 => some (-fireball.width, r1 * mapHeight, r2 * (1 / 2) + 1 / 2, r3 * 2 - 1)
  | _ => none

/-- `createFireball` (game.js 153-189); `r0` is the draw of line 154 and
`r1 r2 r3` are the draws of the chosen case. -/
def createFireball [FloorRing K] (sqrt : K → K) (r0 r1 r2 r3 : K) (s : State K) :
    Option (State K) :=
  let side : Int := ⌊r0 * 4⌋
  match spawn side r1 r2 r3 with
  | none => none
  | some (x, y, dx, dy) =>
    let length := sqrt (dx * dx + dy * dy)
    let dx := dx / length
    let dy := dy / length
    some { s with fireballs := s.fireballs ++ [{ x := x, y := y, dx := dx, dy := dy }] }

/-- The callback of `moveFireballs` (game.js 192-202): the projectile after
the two updates, kept (`some`) when the callback returns `true`. -/
def moveFireball (deltaTime : K) (fb : Fireball K) : Option (Fireball K) :=
  let x := fb.x + fb.dx * fireball.speed * deltaTime
  let y := fb.y + fb.dy * fireball.speed * deltaTime
  if !(decide (x < -fireball.width) || decide (x > mapWidth + fireball.width) ||
       decide (y < -fireball.height) || decide (y > mapHeight + fireball.height))
  then some { fb with x := x, y := y }
  else none

/-- `moveFireballs` (game.js 191-203). -/
def moveFireballs (s : State K) (deltaTime : K) : State K :=
  { s with fireballs := s.fireballs.filterMap (moveFireball deltaTime) }

/-! ## Collisions (game.js 221-233) -/

/-- The condition of the `if` in `checkCollisions` (game.js 223-228). -/
def overlaps (c : Character K) (fb : Fireball K) : Bool :=
  decide (c.x < fb.x + fireball.width) && decide (c.x + character.width > fb.x) &&
  decide (c.y < fb.y + fireball.height) && decide (c.y + character.height > fb.y)

/-- The `for ... of` loop of `checkCollisions` over the remaining projectiles,
threading `isGameOver`; a hit sets the flag and leaves the loop. -/
def checkCollisionsLoop (c : Character K) : List (Fireball K) → Bool → Bool
  | [], isGameOver => isGameOver
  | fb :: rest, isGameOver =>
    if overlaps c fb then true else checkCollisionsLoop c rest isGameOver

/-- `checkCollisions` (game.js 221-233). -/
def checkCollisions (s : State K) : State K :=
  { s with isGameOver := checkCollisionsLoop s.character s.fireballs s.isGameOver }

/-! ## Score (game.js 235-238) -/

/-- `updateScore` (game.js 235-238); `now` is the value of `Date.now()`. -/
def updateScore [FloorRing K] (now : Int) (s : State K) : State K :=
  { s with score := ⌊(((now - s.gameStartTime : Int) : K)) / 1000⌋ }

/-! ## Frame (game.js 91-124) -/

/-- `gameLoop` (game.js 91-124), without the drawing calls and the request for
the next frame; `now` is the value of `Date.now()` inside `updateScore`.
`!lastTimestamp` holds when `lastTimestamp` is `undefined` or `0`. -/
def gameLoop [FloorRing K] (sqrt : K → K) (now : Int) (timestamp : K) (s : State K) :
    State K :=
  let lastTimestamp :=
    match s.lastTimestamp with
    | none => timestamp
    | some t => if t = 0 then timestamp else t
  let deltaTime := (timestamp - lastTimestamp) / 1000
  let s := { s with lastTimestamp := some timestamp }
  if !s.isGameOver then
    let s := if s.isMoving then moveCharacter sqrt s deltaTime else s
    let s := updateCamera s
    let s := moveFireballs s deltaTime
    let s := checkCollisions s
    updateScore now s
  else s

/-! ## Keyboard (game.js 270-278) -/

/-- `String.prototype.toLowerCase`, on the ASCII letters.  A string lowers to
`"s"` exactly when it is `"s"` or `"S"`, in JavaScript as here. -/
def toLowerCase (str : String) : String :=
  String.mk (str.data.map Char.toLower)

/-- `handleKeyPress` (game.js 270-278); `now` is the value `Date.now()` would
return inside `resetGame`. -/
def handleKeyPress (now : Int) (event : KeyboardEvent) (s : State K) : State K :=
  if toLowerCase event.key = "s" then
    { s with isMoving := false, targetX := s.character.x, targetY := s.character.y }
  else if event.code = "Space" ∧ s.isGameOver = true then
    resetGame now s
  else s

/-! ## Specification-side definitions -/

/-- The projectile advanced by one frame, as the specification words it:
position plus direction times projectile speed times `deltaTime`. -/
def advanced (deltaTime : K) (fb : Fireball K) : Fireball K :=
  { x := fb.x + fb.dx * 300 * deltaTime, y := fb.y + fb.dy * 300 * deltaTime,
    dx := fb.dx, dy := fb.dy }

/-- The projectile is at most one projectile-dimension outside the map, as the
specification words it. -/
def withinMargin (fb : Fireball K) : Prop :=
  -50 ≤ fb.x ∧ fb.x ≤ mapWidth + 50 ∧ -50 ≤ fb.y ∧ fb.y ≤ mapHeight + 50

instance (fb : Fireball K) : Decidable (withinMargin fb) := by
  unfold withinMargin; infer_instance

/-- The component of a direction that points into the map, for a projectile
spawned on edge `side` (0 top, 1 right, 2 bottom, 3 left), as the
specification names it. -/
def inward (side : Int) (dx dy : K) : K :=
  match side with
  | 0 => dy
  | 1 => -dx
  | 2 => -dy
  | 3 => dx
  | _ => 0

/-- The `deltaTime` of a frame (game.js 92-93): the seconds between the stored
timestamp and `timestamp`, and 0 when no timestamp is stored. -/
def frameDeltaTime (s : State K) (timestamp : K) : K :=
  (timestamp -
    (match s.lastTimestamp with
     | none => timestamp
     | some t => if t = 0 then timestamp else t)) / 1000

/-- The squared Euclidean distance from the character to the move target. -/
def distSq (s : State K) : K :=
  (s.targetX - s.character.x) * (s.targetX - s.character.x) +
  (s.targetY - s.character.y) * (s.targetY - s.character.y)

/-- The character position satisfies the bounds invariant of the data model. -/
def inBounds (c : Character K) : Prop :=
  0 ≤ c.x ∧ c.x ≤ mapWidth - character.width ∧ 0 ≤ c.y ∧ c.y ≤ mapHeight - character.height

/-- A state to evaluate the functions on, over the rationals: the initial
values of the globals (game.js 4-32) with an 800 x 600 canvas. -/
def sampleState : State ℚ :=
  { canvas := { width := 800, height := 600 }
    character := { x := 400, y := 300 }
    isMoving := false
    targetX := 400
    targetY := 300
    lastTimestamp := none
    fireballs := []
    cameraX := 0
    cameraY := 0
    score := 0
    isGameOver := false
    gameStartTime := 0 }

/-- A move in progress whose target is at distance 1/2 (offset 3/10, 4/10). -/
def arrivingState : State ℚ :=
  { sampleState with isMoving := true, targetX := 4003 / 10, targetY := 1502 / 5 }

/-- A move in progress from (100,100) to (400,500), at distance 500. -/
def seekingState : State ℚ :=
  { sampleState with
    character := { x := 100, y := 100 }, isMoving := true, targetX := 400, targetY := 500 }

/-- The seeking state after a frame at timestamp 1000. -/
def rewoundState : State ℚ :=
  { seekingState with lastTimestamp := some 1000 }

/-- A character on the right bound of its range, with a move in progress to a
point of the map half a unit further right. -/
def edgeState : State ℚ :=
  { sampleState with
    character := { x := 1910, y := 0 }, isMoving := true, targetX := 3821 / 2, targetY := 0 }

/-- The character at (1000,700), far from every map edge, on the 800 x 600
canvas. -/
def inlandState : State ℚ :=
  { sampleState with character := { x := 1000, y := 700 } }

/-- A canvas of 3000 x 2000, larger than the map on both axes. -/
def oversizedState : State ℚ :=
  { sampleState with canvas := { width := 3000, height := 2000 } }

/-- A running game with a move in progress from (100,100) towards (400,500), a
projectile that the next frame brings onto the character, one that it takes
out of the margin, and a stored timestamp of 1000. -/
def contestedState : State ℚ :=
  { seekingState with
    lastTimestamp := some 1000
    fireballs :=
      [{ x := 100, y := 100, dx := 1, dy := 0 }, { x := 2040, y := 100, dx := 1, dy := 0 }] }

/-- A finished game: score 12 and four active projectiles. -/
def gameOverState : State ℚ :=
  { sampleState with
    score := 12
    isGameOver := true
    gameStartTime := 1000
    fireballs :=
      [{ x := 380, y := 290, dx := 1, dy := 0 }, { x := 0, y := -50, dx := 0, dy := 1 },
       { x := 2050, y := 700, dx := -1, dy := 0 }, { x := 900, y := 1550, dx := 0, dy := -1 }] }

end Defs

/-! ## Theorems -/

section Theorems

variable {K : Type} [LinearOrderedField K]

theorem checkCollisionsLoop_eq_true (c : Character K) (l : List (Fireball K)) (g : Bool) :
    checkCollisionsLoop c l g = true ↔ g = true ∨ ∃ fb ∈ l, overlaps c fb = true := by
  induction l with
  | nil => simp [checkCollisionsLoop]
  | cons fb rest ih =>
    simp only [checkCollisionsLoop]
    by_cases h : overlaps c fb = true
    · simp [h]
    · simp [h, ih]

theorem overlaps_iff (c : Character K) (fb : Fireball K) :
    overlaps c fb = true ↔
      c.x < fb.x + 50 ∧ c.x + 90 > fb.x ∧ c.y < fb.y + 50 ∧ c.y + 90 > fb.y := by
  simp [overlaps, fireball.width, fireball.height, character.width, character.height, and_assoc]

/-- C1: `checkCollisions` leaves `isGameOver` true exactly when it was already
true or some projectile of the list passes the strict overlap test against the
character; rectangles that only touch along an edge do not overlap; a
character at (100,100) is hit by a projectile at (150,150) and not by a single
projectile at (500,500). -/
theorem checkCollisions_isGameOver_iff :
    (∀ s : State K, (checkCollisions s).isGameOver = true ↔
      (s.isGameOver = true ∨ ∃ fb ∈ s.fireballs,
        s.character.x < fb.x + 50 ∧ s.character.x + 90 > fb.x ∧
        s.character.y < fb.y + 50 ∧ s.character.y + 90 > fb.y)) ∧
    (∀ (fb : Fireball K) (t : K),
      overlaps ⟨fb.x + 50, t⟩ fb = false ∧ overlaps ⟨fb.x - 90, t⟩ fb = false ∧
      overlaps ⟨t, fb.y + 50⟩ fb = false ∧ overlaps ⟨t, fb.y - 90⟩ fb = false) ∧
    (∀ (s : State K) (dx dy : K),
      (checkCollisions { s with character := ⟨100, 100⟩, fireballs := [⟨150, 150, dx, dy⟩],
                                isGameOver := false }).isGameOver = true ∧
      (checkCollisions { s with character := ⟨100, 100⟩, fireballs := [⟨500, 500, dx, dy⟩],
                                isGameOver := false }).isGameOver = false) := by
  refine ⟨fun s => ?_, fun fb t => ?_, fun s dx dy => ?_⟩
  · simp only [checkCollisions, checkCollisionsLoop_eq_true, overlaps_iff]
  · simp [overlaps, fireball.width, fireball.height, character.width, character.height]
  · constructor
    · simp only [checkCollisions, checkCollisionsLoop_eq_true, overlaps_iff]
      refine Or.inr ⟨_, List.mem_singleton_self _, ?_⟩
      norm_num
    · rw [Bool.eq_false_iff]
      simp only [ne_eq, checkCollisions, checkCollisionsLoop_eq_true, overlaps_iff]
      norm_num

/-! ### Camera -/

/-- C2: when the canvas is no larger than the map, the viewport that
`updateCamera` selects lies inside the map on both axes. -/
theorem updateCamera_viewport_inside_map (s : State K)
    (hw : s.canvas.width ≤ mapWidth) (hh : s.canvas.height ≤ mapHeight) :
    0 ≤ (updateCamera s).cameraX ∧
    (updateCamera s).cameraX + (updateCamera s).canvas.width ≤ mapWidth ∧
    0 ≤ (updateCamera s).cameraY ∧
    (updateCamera s).cameraY + (updateCamera s).canvas.height ≤ mapHeight := by
  simp only [updateCamera]
  refine ⟨le_max_left _ _, ?_, le_max_left _ _, ?_⟩
  · have h : max 0 (min (s.character.x - s.canvas.width / 2) (mapWidth - s.canvas.width))
        ≤ mapWidth - s.canvas.width :=
      max_le (sub_nonneg.mpr hw) (min_le_right _ _)
    linarith
  · have h : max 0 (min (s.character.y - s.canvas.height / 2) (mapHeight - s.canvas.height))
        ≤ mapHeight - s.canvas.height :=
      max_le (sub_nonneg.mpr hh) (min_le_right _ _)
    linarith

/-- Witness of C2 on the sample state (800 x 600 canvas). -/
theorem updateCamera_viewport_inside_map_witness :
    sampleState.canvas.width ≤ mapWidth ∧ sampleState.canvas.height ≤ mapHeight ∧
    0 ≤ (updateCamera sampleState).cameraX ∧
    (updateCamera sampleState).cameraX + (updateCamera sampleState).canvas.width ≤ mapWidth ∧
    0 ≤ (updateCamera sampleState).cameraY ∧
    (updateCamera sampleState).cameraY + (updateCamera sampleState).canvas.height ≤ mapHeight :=
  ⟨by norm_num [sampleState, mapWidth], by norm_num [sampleState, mapHeight],
   updateCamera_viewport_inside_map sampleState
     (by norm_num [sampleState, mapWidth]) (by norm_num [sampleState, mapHeight])⟩

/-! ### Character motion -/

theorem sqrt_lt_one_of_sq_lt_one {sqrt : K → K} {v : K} (hs : IsSqrtAt sqrt v) (hv : v < 1) :
    sqrt v < 1 := by
  obtain ⟨h0, h1⟩ := hs
  by_contra hcon
  have h2 : 1 ≤ sqrt v := not_lt.mp hcon
  nlinarith

theorem one_le_sqrt_of_one_le_sq {sqrt : K → K} {v : K} (hs : IsSqrtAt sqrt v) (hv : 1 ≤ v) :
    1 ≤ sqrt v := by
  obtain ⟨h0, h1⟩ := hs
  by_contra hcon
  have h2 : sqrt v < 1 := not_le.mp hcon
  nlinarith

/-- A step of ratio `r` in `[0,1]` from `x` towards `tx` stays in a range that
holds both. -/
theorem step_in_range {x tx r B : K} (hr0 : 0 ≤ r) (hr1 : r ≤ 1) (hx0 : 0 ≤ x) (hx1 : x ≤ B)
    (ht0 : 0 ≤ tx) (ht1 : tx ≤ B) :
    0 ≤ x + (tx - x) * r ∧ x + (tx - x) * r ≤ B := by
  have hr1' : 0 ≤ 1 - r := sub_nonneg.mpr hr1
  constructor
  · nlinarith [mul_nonneg hr0 ht0, mul_nonneg hr1' hx0]
  · nlinarith [mul_nonneg hr0 (sub_nonneg.mpr ht1), mul_nonneg hr1' (sub_nonneg.mpr hx1)]

/-- A step of ratio `r` in `[0,1]` towards the target does not increase the
squared distance to it. -/
theorem step_distSq_le {x y tx ty r : K} (hr0 : 0 ≤ r) (hr1 : r ≤ 1) :
    (tx - (x + (tx - x) * r)) * (tx - (x + (tx - x) * r)) +
      (ty - (y + (ty - y) * r)) * (ty - (y + (ty - y) * r)) ≤
    (tx - x) * (tx - x) + (ty - y) * (ty - y) := by
  have hnn : 0 ≤ (tx - x) * (tx - x) + (ty - y) * (ty - y) :=
    add_nonneg (mul_self_nonneg _) (mul_self_nonneg _)
  have hsq : (1 - r) * (1 - r) ≤ 1 := by nlinarith
  calc (tx - (x + (tx - x) * r)) * (tx - (x + (tx - x) * r)) +
        (ty - (y + (ty - y) * r)) * (ty - (y + (ty - y) * r))
      = (1 - r) * (1 - r) * ((tx - x) * (tx - x) + (ty - y) * (ty - y)) := by ring
    _ ≤ 1 * ((tx - x) * (tx - x) + (ty - y) * (ty - y)) :=
        mul_le_mul_of_nonneg_right hsq hnn
    _ = (tx - x) * (tx - x) + (ty - y) * (ty - y) := one_mul _

/-- The arrival branch of `moveCharacter` (game.js 133-138). -/
theorem moveCharacter_of_lt_one (sqrt : K → K) (s : State K) (deltaTime : K)
    (hm : s.isMoving = true) (hd : sqrt (distSq s) < 1) :
    moveCharacter sqrt s deltaTime =
      { s with character := { x := s.targetX, y := s.targetY }, isMoving := false } := by
  unfold distSq at hd
  simp [moveCharacter, hm, hd]

/-- The stepping branch of `moveCharacter` (game.js 140-150). -/
theorem moveCharacter_of_one_le (sqrt : K → K) (s : State K) (deltaTime : K)
    (hm : s.isMoving = true) (hd : 1 ≤ sqrt (distSq s)) :
    moveCharacter sqrt s deltaTime =
      { s with character :=
        { x := max 0 (min (s.character.x + (s.targetX - s.character.x) *
                (character.speed * deltaTime / sqrt (distSq s))) (mapWidth - character.width))
          y := max 0 (min (s.character.y + (s.targetY - s.character.y) *
                (character.speed * deltaTime / sqrt (distSq s))) (mapHeight - character.height)) } } := by
  unfold distSq at hd ⊢
  simp [moveCharacter, hm, not_lt.mpr hd]

theorem rat_sqrt_mul_self {q : ℚ} (hq : 0 ≤ q) : Rat.sqrt (q * q) = q := by
  rw [Rat.sqrt_eq, abs_of_nonneg hq]

theorem isSqrtAt_rat_sqrt {q v : ℚ} (hq : 0 ≤ q) (hv : v = q * q) : IsSqrtAt Rat.sqrt v := by
  subst hv
  rw [IsSqrtAt, rat_sqrt_mul_self hq]
  exact ⟨hq, rfl⟩

/-- Over the reals `Real.sqrt` is a square root at every non-negative argument,
so the assumption `IsSqrtAt` of the theorems below holds at every input. -/
theorem isSqrtAt_real_sqrt {v : ℝ} (hv : 0 ≤ v) : IsSqrtAt Real.sqrt v :=
  ⟨Real.sqrt_nonneg v, Real.mul_self_sqrt hv⟩

/-- C3: when a move is in progress and the target is at Euclidean distance less
than 1, `moveCharacter` puts the character exactly on the target and clears
`isMoving`, whatever `deltaTime` is. -/
theorem moveCharacter_snaps_to_target (sqrt : K → K) (s : State K) (deltaTime : K)
    (hm : s.isMoving = true) (hs : IsSqrtAt sqrt (distSq s)) (hd : distSq s < 1) :
    (moveCharacter sqrt s deltaTime).character = { x := s.targetX, y := s.targetY } ∧
    (moveCharacter sqrt s deltaTime).isMoving = false := by
  rw [moveCharacter_of_lt_one sqrt s deltaTime hm (sqrt_lt_one_of_sq_lt_one hs hd)]
  exact ⟨rfl, rfl⟩

/-- Witness of C3: a target at distance 1/2. -/
theorem moveCharacter_snaps_to_target_witness :
    arrivingState.isMoving = true ∧ IsSqrtAt Rat.sqrt (distSq arrivingState) ∧
    distSq arrivingState < 1 ∧
    (moveCharacter Rat.sqrt arrivingState (1 / 60)).character =
      { x := arrivingState.targetX, y := arrivingState.targetY } ∧
    (moveCharacter Rat.sqrt arrivingState (1 / 60)).isMoving = false :=
  have hs : IsSqrtAt Rat.sqrt (distSq arrivingState) :=
    isSqrtAt_rat_sqrt (q := 1 / 2) (by norm_num)
      (by norm_num [distSq, arrivingState, sampleState])
  have hd : distSq arrivingState < 1 := by norm_num [distSq, arrivingState, sampleState]
  ⟨rfl, hs, hd, moveCharacter_snaps_to_target Rat.sqrt arrivingState (1 / 60) rfl hs hd⟩

theorem distSq_seekingState : distSq seekingState = 500 * 500 := by
  norm_num [distSq, seekingState, sampleState]

theorem sqrt_distSq_seekingState : Rat.sqrt (distSq seekingState) = 500 := by
  rw [distSq_seekingState, rat_sqrt_mul_self (by norm_num)]

theorem inBounds_seekingState :
    inBounds seekingState.character ∧
    inBounds ({ x := seekingState.targetX, y := seekingState.targetY } : Character ℚ) := by
  norm_num [inBounds, seekingState, sampleState, mapWidth, mapHeight, character.width,
    character.height]

/-- C4, as stated, fails: from (100,100) with target (400,500) at distance 500
and `deltaTime = 15/2`, one call of `moveCharacter` puts the character at
(1000,1300), which is not on the segment from the old position to the target
and is farther from the target than before. -/
theorem moveCharacter_overshoots_target :
    seekingState.isMoving = true ∧ inBounds seekingState.character ∧
    inBounds ({ x := seekingState.targetX, y := seekingState.targetY } : Character ℚ) ∧
    IsSqrtAt Rat.sqrt (distSq seekingState) ∧ 1 ≤ distSq seekingState ∧ (0 : ℚ) ≤ 15 / 2 ∧
    (moveCharacter Rat.sqrt seekingState (15 / 2)).character = { x := 1000, y := 1300 } ∧
    (¬ ∃ t : ℚ, 0 ≤ t ∧ t ≤ 1 ∧
      (moveCharacter Rat.sqrt seekingState (15 / 2)).character.x =
        seekingState.character.x + t * (seekingState.targetX - seekingState.character.x) ∧
      (moveCharacter Rat.sqrt seekingState (15 / 2)).character.y =
        seekingState.character.y + t * (seekingState.targetY - seekingState.character.y)) ∧
    distSq seekingState < distSq (moveCharacter Rat.sqrt seekingState (15 / 2)) := by
  have hmove : moveCharacter Rat.sqrt seekingState (15 / 2) =
      { seekingState with character := { x := 1000, y := 1300 } } := by
    rw [moveCharacter_of_one_le Rat.sqrt seekingState (15 / 2) rfl
      (by rw [sqrt_distSq_seekingState]; norm_num), sqrt_distSq_seekingState]
    norm_num [seekingState, sampleState, mapWidth, mapHeight, character.width,
      character.height, character.speed]
  refine ⟨rfl, inBounds_seekingState.1, inBounds_seekingState.2,
    isSqrtAt_rat_sqrt (q := 500) (by norm_num) distSq_seekingState,
    by rw [distSq_seekingState]; norm_num, by norm_num, by rw [hmove], ?_, ?_⟩
  · rw [hmove]
    rintro ⟨t, _, ht1, hx, _⟩
    norm_num [seekingState, sampleState] at hx
    linarith
  · rw [hmove]
    norm_num [distSq, seekingState, sampleState]

/-- C4, amended: when a move is in progress, the character and the target are
both in the character's range, the distance to the target is at least 1 and
the step `speed * deltaTime` is between 0 and that distance, the new position
lies on the segment from the old position to the target and the (squared)
distance to the target does not grow. -/
theorem moveCharacter_no_overshoot (sqrt : K → K) (s : State K) (deltaTime : K)
    (hm : s.isMoving = true) (hc : inBounds s.character)
    (ht : inBounds ({ x := s.targetX, y := s.targetY } : Character K))
    (hs : IsSqrtAt sqrt (distSq s)) (hd : 1 ≤ distSq s)
    (h0 : 0 ≤ character.speed * deltaTime)
    (h1 : character.speed * deltaTime ≤ sqrt (distSq s)) :
    (∃ t : K, 0 ≤ t ∧ t ≤ 1 ∧
      (moveCharacter sqrt s deltaTime).character.x =
        s.character.x + t * (s.targetX - s.character.x) ∧
      (moveCharacter sqrt s deltaTime).character.y =
        s.character.y + t * (s.targetY - s.character.y)) ∧
    distSq (moveCharacter sqrt s deltaTime) ≤ distSq s := by
  have hd1 : 1 ≤ sqrt (distSq s) := one_le_sqrt_of_one_le_sq hs hd
  have hpos : 0 < sqrt (distSq s) := lt_of_lt_of_le one_pos hd1
  rw [moveCharacter_of_one_le sqrt s deltaTime hm hd1]
  generalize hr : character.speed * deltaTime / sqrt (distSq s) = r
  have hr0 : 0 ≤ r := by rw [← hr]; exact div_nonneg h0 hpos.le
  have hr1 : r ≤ 1 := by rw [← hr]; exact (div_le_one hpos).mpr h1
  obtain ⟨hx0, hx1, hy0, hy1⟩ := hc
  obtain ⟨htx0, htx1, hty0, hty1⟩ := ht
  simp only at htx0 htx1 hty0 hty1
  obtain ⟨ex0, ex1⟩ := step_in_range hr0 hr1 hx0 hx1 htx0 htx1
  obtain ⟨ey0, ey1⟩ := step_in_range hr0 hr1 hy0 hy1 hty0 hty1
  rw [min_eq_left ex1, min_eq_left ey1, max_eq_right ex0, max_eq_right ey0]
  refine ⟨⟨r, hr0, hr1, by ring, by ring⟩, ?_⟩
  exact step_distSq_le hr0 hr1

/-- Witness of C4, amended: a step of 50 towards a target at distance 500. -/
theorem moveCharacter_no_overshoot_witness :
    seekingState.isMoving = true ∧ inBounds seekingState.character ∧
    inBounds ({ x := seekingState.targetX, y := seekingState.targetY } : Character ℚ) ∧
    IsSqrtAt Rat.sqrt (distSq seekingState) ∧ 1 ≤ distSq seekingState ∧
    (0 : ℚ) ≤ character.speed * (1 / 4) ∧
    character.speed * (1 / 4) ≤ Rat.sqrt (distSq seekingState) ∧
    ((∃ t : ℚ, 0 ≤ t ∧ t ≤ 1 ∧
      (moveCharacter Rat.sqrt seekingState (1 / 4)).character.x =
        seekingState.character.x + t * (seekingState.targetX - seekingState.character.x) ∧
      (moveCharacter Rat.sqrt seekingState (1 / 4)).character.y =
        seekingState.character.y + t * (seekingState.targetY - seekingState.character.y)) ∧
    distSq (moveCharacter Rat.sqrt seekingState (1 / 4)) ≤ distSq seekingState) :=
  have hs : IsSqrtAt Rat.sqrt (distSq seekingState) :=
    isSqrtAt_rat_sqrt (q := 500) (by norm_num) distSq_seekingState
  have hd : 1 ≤ distSq seekingState := by rw [distSq_seekingState]; norm_num
  have h0 : (0 : ℚ) ≤ character.speed * (1 / 4) := by norm_num [character.speed]
  have h1 : character.speed * (1 / 4) ≤ Rat.sqrt (distSq seekingState) := by
    rw [sqrt_distSq_seekingState]; norm_num [character.speed]
  ⟨rfl, inBounds_seekingState.1, inBounds_seekingState.2, hs, hd, h0, h1,
    moveCharacter_no_overshoot Rat.sqrt seekingState (1 / 4) rfl inBounds_seekingState.1
      inBounds_seekingState.2 hs hd h0 h1⟩

/-- In a running game with a move in progress, the character after a frame is
where `moveCharacter` puts it, with `deltaTime` the difference of the two
timestamps in seconds. -/
theorem gameLoop_character_of_moving [FloorRing K] (sqrt : K → K) (now : Int) (timestamp : K)
    (s : State K) {t : K} (hl : s.lastTimestamp = some t) (ht : t ≠ 0)
    (hg : s.isGameOver = false) (hm : s.isMoving = true) :
    (gameLoop sqrt now timestamp s).character =
      (moveCharacter sqrt { s with lastTimestamp := some timestamp }
        ((timestamp - t) / 1000)).character := by
  simp only [gameLoop, hl, ht, hg, hm, if_false, if_true, Bool.not_false]
  simp only [updateScore, checkCollisions, moveFireballs, updateCamera]

/-- C5, as stated, fails: with `deltaTime = -1/10` the character at (100,100)
seeking (400,500) is moved to (88,84), away from the target; `gameLoop` passes
that `deltaTime` on when the timestamp 900 follows the timestamp 1000. -/
theorem moveCharacter_negative_delta_moves :
    seekingState.isMoving = true ∧ inBounds seekingState.character ∧
    IsSqrtAt Rat.sqrt (distSq seekingState) ∧ 1 ≤ distSq seekingState ∧ (-1 / 10 : ℚ) ≤ 0 ∧
    (moveCharacter Rat.sqrt seekingState (-1 / 10)).character = { x := 88, y := 84 } ∧
    (moveCharacter Rat.sqrt seekingState (-1 / 10)).character ≠ seekingState.character ∧
    (gameLoop Rat.sqrt 0 900 rewoundState).character = { x := 88, y := 84 } := by
  have hmove : moveCharacter Rat.sqrt seekingState (-1 / 10) =
      { seekingState with character := { x := 88, y := 84 } } := by
    rw [moveCharacter_of_one_le Rat.sqrt seekingState (-1 / 10) rfl
      (by rw [sqrt_distSq_seekingState]; norm_num), sqrt_distSq_seekingState]
    norm_num [seekingState, sampleState, mapWidth, mapHeight, character.width,
      character.height, character.speed]
  refine ⟨rfl, inBounds_seekingState.1,
    isSqrtAt_rat_sqrt (q := 500) (by norm_num) distSq_seekingState,
    by rw [distSq_seekingState]; norm_num, by norm_num, by rw [hmove], ?_, ?_⟩
  · rw [hmove]
    intro h
    have hx := congrArg Character.x h
    norm_num [seekingState, sampleState] at hx
  · have hd : ((900 : ℚ) - 1000) / 1000 = -1 / 10 := by norm_num
    have hsq : Rat.sqrt
        (distSq ({ rewoundState with lastTimestamp := some 900 } : State ℚ)) = 500 :=
      sqrt_distSq_seekingState
    rw [gameLoop_character_of_moving Rat.sqrt 0 900 rewoundState (t := 1000) rfl
        (by norm_num) rfl rfl,
      hd, moveCharacter_of_one_le Rat.sqrt _ (-1 / 10) rfl (by rw [hsq]; norm_num), hsq]
    norm_num [rewoundState, seekingState, sampleState, mapWidth, mapHeight, character.width,
      character.height, character.speed]

/-- C5, amended: when a move is in progress, the character is in its range and
the distance to the target is at least 1, a call of `moveCharacter` with
`deltaTime = 0` leaves the character position unchanged. -/
theorem moveCharacter_zero_delta (sqrt : K → K) (s : State K)
    (hm : s.isMoving = true) (hc : inBounds s.character)
    (hs : IsSqrtAt sqrt (distSq s)) (hd : 1 ≤ distSq s) :
    (moveCharacter sqrt s 0).character = s.character := by
  rw [moveCharacter_of_one_le sqrt s 0 hm (one_le_sqrt_of_one_le_sq hs hd)]
  obtain ⟨hx0, hx1, hy0, hy1⟩ := hc
  have hx : max 0 (min (s.character.x + (s.targetX - s.character.x) *
      (character.speed * 0 / sqrt (distSq s))) (mapWidth - character.width)) = s.character.x := by
    rw [mul_zero, zero_div, mul_zero, add_zero, min_eq_left hx1, max_eq_right hx0]
  have hy : max 0 (min (s.character.y + (s.targetY - s.character.y) *
      (character.speed * 0 / sqrt (distSq s))) (mapHeight - character.height)) =
      s.character.y := by
    rw [mul_zero, zero_div, mul_zero, add_zero, min_eq_left hy1, max_eq_right hy0]
  show Character.mk _ _ = s.character
  rw [hx, hy]

/-- Witness of C5, amended: the character at (100,100) seeking (400,500). -/
theorem moveCharacter_zero_delta_witness :
    seekingState.isMoving = true ∧ inBounds seekingState.character ∧
    IsSqrtAt Rat.sqrt (distSq seekingState) ∧ 1 ≤ distSq seekingState ∧
    (moveCharacter Rat.sqrt seekingState 0).character = seekingState.character :=
  have hs : IsSqrtAt Rat.sqrt (distSq seekingState) :=
    isSqrtAt_rat_sqrt (q := 500) (by norm_num) distSq_seekingState
  have hd : 1 ≤ distSq seekingState := by rw [distSq_seekingState]; norm_num
  ⟨rfl, inBounds_seekingState.1, hs, hd,
    moveCharacter_zero_delta Rat.sqrt seekingState rfl inBounds_seekingState.1 hs hd⟩

theorem distSq_edgeState : distSq edgeState = 1 / 2 * (1 / 2) := by
  norm_num [distSq, edgeState, sampleState]

/-- C6 at a failing input: the character is at (1910,0), on the right bound of
its range, and the target (1910.5,0) is a point of the map at distance 1/2;
`moveCharacter` takes the arrival branch, which returns before the clamp, and
leaves the character at x = 1910.5, outside `[0, mapWidth - width]`. -/
theorem moveCharacter_snap_leaves_bounds :
    edgeState.isMoving = true ∧ inBounds edgeState.character ∧
    (0 ≤ edgeState.targetX ∧ edgeState.targetX ≤ mapWidth) ∧
    (0 ≤ edgeState.targetY ∧ edgeState.targetY ≤ mapHeight) ∧ (0 : ℚ) ≤ 1 / 60 ∧
    (moveCharacter Rat.sqrt edgeState (1 / 60)).character = { x := 3821 / 2, y := 0 } ∧
    ¬ inBounds (moveCharacter Rat.sqrt edgeState (1 / 60)).character := by
  have hmove : moveCharacter Rat.sqrt edgeState (1 / 60) =
      { edgeState with character := { x := 3821 / 2, y := 0 }, isMoving := false } := by
    rw [moveCharacter_of_lt_one Rat.sqrt edgeState (1 / 60) rfl
      (by rw [distSq_edgeState, rat_sqrt_mul_self (by norm_num)]; norm_num)]
    rfl
  refine ⟨rfl, ?_, ?_, ?_, by norm_num, by rw [hmove], ?_⟩
  · norm_num [inBounds, edgeState, sampleState, mapWidth, mapHeight, character.width,
      character.height]
  · norm_num [edgeState, sampleState, mapWidth]
  · norm_num [edgeState, sampleState, mapHeight]
  · rw [hmove]
    norm_num [inBounds, mapWidth, character.width]

/-! ### Spawning -/

theorem floor_side [FloorRing K] {r0 : K} (h0 : 0 ≤ r0) (h1 : r0 < 1) :
    ⌊r0 * 4⌋ = 0 ∨ ⌊r0 * 4⌋ = 1 ∨ ⌊r0 * 4⌋ = 2 ∨ ⌊r0 * 4⌋ = 3 := by
  have ha : 0 ≤ ⌊r0 * 4⌋ := Int.floor_nonneg.mpr (by positivity)
  have hb : ⌊r0 * 4⌋ < 4 := Int.floor_lt.mpr (by push_cast; linarith)
  omega

/-- On each of the four edges the `switch` assigns a direction whose inward
component `a` is in `[1/2, 1)` and whose other component `b` is in `[-1, 1)`. -/
theorem spawn_direction {side : Int} (hside : side = 0 ∨ side = 1 ∨ side = 2 ∨ side = 3)
    (r1 : K) {r2 r3 : K} (h2 : 0 ≤ r2) (h2' : r2 < 1) (h3 : 0 ≤ r3) (h3' : r3 < 1) :
    ∃ x y dx dy : K, spawn side r1 r2 r3 = some (x, y, dx, dy) ∧
      1 / 2 ≤ inward side dx dy ∧
      dx * dx + dy * dy ≤ inward side dx dy * inward side dx dy + 1 ∧
      inward side dx dy * inward side dx dy ≤ dx * dx + dy * dy ∧
      ∀ l : K, inward side (dx / l) (dy / l) = inward side dx dy / l := by
  have q2 := mul_self_nonneg (r2 * 2 - 1)
  have q3 := mul_self_nonneg (r3 * 2 - 1)
  have p2 := mul_nonneg h2 (sub_nonneg.mpr h2'.le)
  have p3 := mul_nonneg h3 (sub_nonneg.mpr h3'.le)
  rcases hside with h | h | h | h <;> subst h
  · refine ⟨_, _, _, _, rfl, ?_, ?_, ?_, fun l => rfl⟩ <;> simp only [inward] <;> linarith
  · refine ⟨_, _, _, _, rfl, ?_, ?_, ?_, fun l => ?_⟩ <;> simp only [inward]
    · linarith
    · linarith
    · linarith
    · rw [neg_div, neg_neg, neg_neg]
  · refine ⟨_, _, _, _, rfl, ?_, ?_, ?_, fun l => ?_⟩ <;> simp only [inward]
    · linarith
    · linarith
    · linarith
    · rw [neg_div, neg_neg, neg_neg]
  · refine ⟨_, _, _, _, rfl, ?_, ?_, ?_, fun l => rfl⟩ <;> simp only [inward] <;> linarith

/-- The value of `createFireball` once the `switch` has assigned `x, y, dx, dy`. -/
theorem createFireball_of_spawn [FloorRing K] (sqrt : K → K) (r0 r1 r2 r3 : K) (s : State K)
    {x y dx dy : K} (h : spawn ⌊r0 * 4⌋ r1 r2 r3 = some (x, y, dx, dy)) :
    createFireball sqrt r0 r1 r2 r3 s =
      some { s with fireballs := s.fireballs ++
        [{ x := x, y := y, dx := dx / sqrt (dx * dx + dy * dy),
           dy := dy / sqrt (dx * dx + dy * dy) }] } := by
  simp only [createFireball, h]

/-- Dividing a non-zero vector by its length gives a vector of squared length 1. -/
theorem normalize_unit {sqrt : K → K} {dx dy : K} (hs : IsSqrtAt sqrt (dx * dx + dy * dy))
    (hpos : 0 < dx * dx + dy * dy) :
    dx / sqrt (dx * dx + dy * dy) * (dx / sqrt (dx * dx + dy * dy)) +
      dy / sqrt (dx * dx + dy * dy) * (dy / sqrt (dx * dx + dy * dy)) = 1 := by
  obtain ⟨h0, h1⟩ := hs
  generalize sqrt (dx * dx + dy * dy) = l at h0 h1
  have hl : l ≠ 0 := by
    rintro rfl
    rw [mul_zero] at h1
    exact absurd h1 (ne_of_lt hpos)
  rw [div_mul_div_comm, div_mul_div_comm, ← add_div, h1, ← h1]
  exact div_self (mul_ne_zero hl hl)

/-- C7: for draws in `[0,1)`, `createFireball` appends one projectile, and the
direction stored in it has squared length exactly 1, provided `Math.sqrt` is a
square root at the squared length of the direction the `switch` assigned. -/
theorem createFireball_direction_unit [FloorRing K] (sqrt : K → K) (r0 r1 r2 r3 : K)
    (s : State K) (h0 : 0 ≤ r0 ∧ r0 < 1) (_h1 : 0 ≤ r1 ∧ r1 < 1) (h2 : 0 ≤ r2 ∧ r2 < 1)
    (h3 : 0 ≤ r3 ∧ r3 < 1)
    (hs : ∀ x y dx dy : K, spawn ⌊r0 * 4⌋ r1 r2 r3 = some (x, y, dx, dy) →
      IsSqrtAt sqrt (dx * dx + dy * dy)) :
    ∃ fb : Fireball K,
      createFireball sqrt r0 r1 r2 r3 s = some { s with fireballs := s.fireballs ++ [fb] } ∧
      fb.dx * fb.dx + fb.dy * fb.dy = 1 := by
  obtain ⟨x, y, dx, dy, hsp, ha, _, hb, _⟩ :=
    spawn_direction (floor_side h0.1 h0.2) r1 h2.1 h2.2 h3.1 h3.2
  refine ⟨_, createFireball_of_spawn sqrt r0 r1 r2 r3 s hsp, ?_⟩
  have hpos : 0 < dx * dx + dy * dy := by nlinarith
  exact normalize_unit (hs x y dx dy hsp) hpos

/-- Witness of C7: the bottom edge, with the direction (0, -1/2) before
normalization. -/
theorem createFireball_direction_unit_witness :
    ((0 : ℚ) ≤ 1 / 2 ∧ (1 / 2 : ℚ) < 1) ∧ ((0 : ℚ) ≤ 1 / 4 ∧ (1 / 4 : ℚ) < 1) ∧
    ((0 : ℚ) ≤ 1 / 2 ∧ (1 / 2 : ℚ) < 1) ∧ ((0 : ℚ) ≤ 0 ∧ (0 : ℚ) < 1) ∧
    (∀ x y dx dy : ℚ, spawn ⌊(1 / 2 : ℚ) * 4⌋ (1 / 4) (1 / 2) 0 = some (x, y, dx, dy) →
      IsSqrtAt Rat.sqrt (dx * dx + dy * dy)) ∧
    ∃ fb : Fireball ℚ,
      createFireball Rat.sqrt (1 / 2) (1 / 4) (1 / 2) 0 sampleState =
        some { sampleState with fireballs := sampleState.fireballs ++ [fb] } ∧
      fb.dx * fb.dx + fb.dy * fb.dy = 1 :=
  have hs : ∀ x y dx dy : ℚ, spawn ⌊(1 / 2 : ℚ) * 4⌋ (1 / 4) (1 / 2) 0 = some (x, y, dx, dy) →
      IsSqrtAt Rat.sqrt (dx * dx + dy * dy) := by
    intro x y dx dy h
    have hfl : ⌊(1 / 2 : ℚ) * 4⌋ = 2 := by norm_num
    rw [hfl] at h
    simp only [spawn, Option.some.injEq, Prod.mk.injEq] at h
    obtain ⟨_, _, rfl, rfl⟩ := h
    exact isSqrtAt_rat_sqrt (q := 1 / 2) (by norm_num) (by norm_num)
  ⟨by norm_num, by norm_num, by norm_num, by norm_num, hs,
    createFireball_direction_unit Rat.sqrt (1 / 2) (1 / 4) (1 / 2) 0 sampleState
      (by norm_num) (by norm_num) (by norm_num) (by norm_num) hs⟩

/-- C8, as stated, fails: on the top edge with velocity draws 1/32 and 0 the
direction before normalization is (-15/16, 1/2), of length 17/16, and the
stored direction is (-15/17, 8/17), whose inward component 8/17 is below 1/2. -/
theorem createFireball_inward_below_half :
    ((0 : ℚ) ≤ 1 / 32 ∧ (1 / 32 : ℚ) < 1) ∧ ((0 : ℚ) ≤ 0 ∧ (0 : ℚ) < 1) ∧
    IsSqrtAt Rat.sqrt ((-15 / 16 : ℚ) * (-15 / 16) + 1 / 2 * (1 / 2)) ∧
    createFireball Rat.sqrt 0 0 (1 / 32) 0 sampleState =
      some { sampleState with
        fireballs := [{ x := 0, y := -50, dx := -15 / 17, dy := 8 / 17 }] } ∧
    inward 0 (-15 / 17 : ℚ) (8 / 17) < 1 / 2 := by
  have hv : ((1 / 32 : ℚ) * 2 - 1) * ((1 / 32 : ℚ) * 2 - 1) +
      ((0 : ℚ) * (1 / 2) + 1 / 2) * ((0 : ℚ) * (1 / 2) + 1 / 2) = 17 / 16 * (17 / 16) := by
    norm_num
  have hsp : spawn ⌊(0 : ℚ) * 4⌋ (0 : ℚ) (1 / 32) 0 =
      some ((0 : ℚ) * mapWidth, -fireball.height, (1 / 32 : ℚ) * 2 - 1,
        (0 : ℚ) * (1 / 2) + 1 / 2) := by
    rw [zero_mul, Int.floor_zero]
    rfl
  refine ⟨by norm_num, by norm_num,
    isSqrtAt_rat_sqrt (q := 17 / 16) (by norm_num) (by norm_num), ?_, ?_⟩
  · rw [createFireball_of_spawn Rat.sqrt 0 0 (1 / 32) 0 sampleState hsp, hv,
      rat_sqrt_mul_self (by norm_num)]
    norm_num [sampleState, fireball.height]
  · norm_num [inward]

/-- C8, amended: for draws in `[0,1)` the direction stored in the projectile
that `createFireball` appends has a positive inward component whose square is
at least 1/5, that is, an inward component of at least 1/sqrt 5 (about 0.447);
the bound is reached at the draws 0 and 0 of the two velocity components. -/
theorem createFireball_inward_bound [FloorRing K] (sqrt : K → K) (r0 r1 r2 r3 : K)
    (s : State K) (h0 : 0 ≤ r0 ∧ r0 < 1) (_h1 : 0 ≤ r1 ∧ r1 < 1) (h2 : 0 ≤ r2 ∧ r2 < 1)
    (h3 : 0 ≤ r3 ∧ r3 < 1)
    (hs : ∀ x y dx dy : K, spawn ⌊r0 * 4⌋ r1 r2 r3 = some (x, y, dx, dy) →
      IsSqrtAt sqrt (dx * dx + dy * dy)) :
    ∃ fb : Fireball K,
      createFireball sqrt r0 r1 r2 r3 s = some { s with fireballs := s.fireballs ++ [fb] } ∧
      0 < inward ⌊r0 * 4⌋ fb.dx fb.dy ∧
      1 ≤ 5 * (inward ⌊r0 * 4⌋ fb.dx fb.dy * inward ⌊r0 * 4⌋ fb.dx fb.dy) := by
  obtain ⟨x, y, dx, dy, hsp, ha, hub, hlb, hdiv⟩ :=
    spawn_direction (floor_side h0.1 h0.2) r1 h2.1 h2.2 h3.1 h3.2
  refine ⟨_, createFireball_of_spawn sqrt r0 r1 r2 r3 s hsp, ?_⟩
  obtain ⟨hl0, hl⟩ := hs x y dx dy hsp
  simp only [hdiv]
  generalize inward ⌊r0 * 4⌋ dx dy = a at ha hub hlb
  generalize dx * dx + dy * dy = v at hl0 hl hub hlb
  generalize sqrt v = l at hl0 hl
  have hapos : 0 < a := lt_of_lt_of_le (by norm_num) ha
  have hvpos : 0 < v := lt_of_lt_of_le (mul_pos hapos hapos) hlb
  have hlpos : 0 < l := by
    rcases hl0.eq_or_lt with h | h
    · rw [← h, mul_zero] at hl
      exact absurd hl (ne_of_lt hvpos)
    · exact h
  refine ⟨div_pos hapos hlpos, ?_⟩
  rw [div_mul_div_comm, hl, ← mul_div_assoc, le_div_iff₀ hvpos]
  nlinarith

/-- Witness of C8, amended: the left edge, with the direction (1/2, 0) before
normalization. -/
theorem createFireball_inward_bound_witness :
    ((0 : ℚ) ≤ 3 / 4 ∧ (3 / 4 : ℚ) < 1) ∧ ((0 : ℚ) ≤ 1 / 2 ∧ (1 / 2 : ℚ) < 1) ∧
    ((0 : ℚ) ≤ 0 ∧ (0 : ℚ) < 1) ∧ ((0 : ℚ) ≤ 1 / 2 ∧ (1 / 2 : ℚ) < 1) ∧
    (∀ x y dx dy : ℚ, spawn ⌊(3 / 4 : ℚ) * 4⌋ (1 / 2) 0 (1 / 2) = some (x, y, dx, dy) →
      IsSqrtAt Rat.sqrt (dx * dx + dy * dy)) ∧
    ∃ fb : Fireball ℚ,
      createFireball Rat.sqrt (3 / 4) (1 / 2) 0 (1 / 2) sampleState =
        some { sampleState with fireballs := sampleState.fireballs ++ [fb] } ∧
      0 < inward ⌊(3 / 4 : ℚ) * 4⌋ fb.dx fb.dy ∧
      1 ≤ 5 * (inward ⌊(3 / 4 : ℚ) * 4⌋ fb.dx fb.dy * inward ⌊(3 / 4 : ℚ) * 4⌋ fb.dx fb.dy) :=
  have hs : ∀ x y dx dy : ℚ, spawn ⌊(3 / 4 : ℚ) * 4⌋ (1 / 2) 0 (1 / 2) = some (x, y, dx, dy) →
      IsSqrtAt Rat.sqrt (dx * dx + dy * dy) := by
    intro x y dx dy h
    have hfl : ⌊(3 / 4 : ℚ) * 4⌋ = 3 := by norm_num
    rw [hfl] at h
    simp only [spawn, Option.some.injEq, Prod.mk.injEq] at h
    obtain ⟨_, _, rfl, rfl⟩ := h
    exact isSqrtAt_rat_sqrt (q := 1 / 2) (by norm_num) (by norm_num)
  ⟨by norm_num, by norm_num, by norm_num, by norm_num, hs,
    createFireball_inward_bound Rat.sqrt (3 / 4) (1 / 2) 0 (1 / 2) sampleState
      (by norm_num) (by norm_num) (by norm_num) (by norm_num) hs⟩

/-! ### Projectile motion -/

/-- The callback of `moveFireballs` keeps the advanced projectile exactly when
it is within the margin. -/
theorem moveFireball_eq (deltaTime : K) (fb : Fireball K) :
    moveFireball deltaTime fb =
      if withinMargin (advanced deltaTime fb) then some (advanced deltaTime fb) else none := by
  by_cases h : withinMargin (advanced deltaTime fb)
  · rw [if_pos h]
    obtain ⟨h1, h2, h3, h4⟩ := h
    simp only [advanced] at h1 h2 h3 h4
    simp only [moveFireball, fireball.speed, fireball.width, fireball.height, advanced]
    rw [if_pos]
    simp only [gt_iff_lt, Bool.not_eq_true', Bool.or_eq_false_iff, decide_eq_false_iff_not,
      not_lt]
    exact ⟨⟨⟨h1, h2⟩, h3⟩, h4⟩
  · rw [if_neg h]
    simp only [withinMargin, advanced] at h
    simp only [moveFireball, fireball.speed, fireball.width, fireball.height]
    rw [if_neg]
    simp only [gt_iff_lt, Bool.not_eq_true', Bool.or_eq_false_iff, decide_eq_false_iff_not,
      not_lt]
    rintro ⟨⟨⟨h1, h2⟩, h3⟩, h4⟩
    exact h ⟨h1, h2, h3, h4⟩

theorem filterMap_moveFireball (deltaTime : K) (l : List (Fireball K)) :
    l.filterMap (moveFireball deltaTime) =
      (l.map (advanced deltaTime)).filter (fun fb => decide (withinMargin fb)) := by
  induction l with
  | nil => rfl
  | cons fb rest ih =>
    rw [List.filterMap_cons, List.map_cons, List.filter_cons, moveFireball_eq]
    by_cases h : withinMargin (advanced deltaTime fb)
    · simp only [h, if_true, decide_True, ih]
    · simp only [h, if_false, decide_False, ih]
      rfl

/-- C9: `moveFireballs` replaces the list by the sub-list, in the original
order, of the advanced projectiles that are within the margin of one
projectile dimension around the map, and changes nothing else; so a projectile
is in the new list exactly when it is the advanced position of a projectile of
the old list and that position is within the margin. -/
theorem moveFireballs_eq_filter_advanced (s : State K) (deltaTime : K) :
    moveFireballs s deltaTime =
      { s with fireballs :=
          (s.fireballs.map (advanced deltaTime)).filter (fun fb => decide (withinMargin fb)) } ∧
    ∀ fb' : Fireball K, fb' ∈ (moveFireballs s deltaTime).fireballs ↔
      (∃ fb ∈ s.fireballs, advanced deltaTime fb = fb') ∧ withinMargin fb' := by
  have h : moveFireballs s deltaTime =
      { s with fireballs :=
          (s.fireballs.map (advanced deltaTime)).filter (fun fb => decide (withinMargin fb)) } := by
    simp only [moveFireballs, filterMap_moveFireball]
  refine ⟨h, fun fb' => ?_⟩
  rw [h]
  simp only [List.mem_filter, List.mem_map, decide_eq_true_eq]

/-! ### Restart -/

/-- C10, as stated, fails: a key event with code "Space" whose key is "s" takes
the stop branch of `handleKeyPress`; from game over with score 12 and four
projectiles the score, the projectiles and the flag stay as they were. -/
theorem handleKeyPress_space_with_key_s :
    gameOverState.isGameOver = true ∧
    ({ key := "s", code := "Space" } : KeyboardEvent).code = "Space" ∧
    (handleKeyPress 13500 { key := "s", code := "Space" } gameOverState).score = 12 ∧
    (handleKeyPress 13500 { key := "s", code := "Space" } gameOverState).fireballs.length = 4 ∧
    (handleKeyPress 13500 { key := "s", code := "Space" } gameOverState).isGameOver = true ∧
    (handleKeyPress 13500 { key := "s", code := "Space" } gameOverState).gameStartTime ≠ 13500 := by
  have hk : toLowerCase "s" = "s" := by decide
  have h : handleKeyPress 13500 { key := "s", code := "Space" } gameOverState =
      { gameOverState with
        isMoving := false
        targetX := gameOverState.character.x
        targetY := gameOverState.character.y } := by
    simp only [handleKeyPress, hk, if_true]
  rw [h]
  exact ⟨rfl, rfl, rfl, rfl, rfl, by decide⟩

/-- C10, amended: in a state with `isGameOver = true`, `handleKeyPress` on an
event with code "Space" and a key other than s/S resets the game: score 0, no
projectiles, `isGameOver = false`, `gameStartTime` the current time and the
character at (canvas.width / 2, canvas.height / 2). -/
theorem handleKeyPress_restart (now : Int) (event : KeyboardEvent) (s : State K)
    (hg : s.isGameOver = true) (hcode : event.code = "Space")
    (hkey : toLowerCase event.key ≠ "s") :
    (handleKeyPress now event s).score = 0 ∧
    (handleKeyPress now event s).fireballs = [] ∧
    (handleKeyPress now event s).isGameOver = false ∧
    (handleKeyPress now event s).gameStartTime = now ∧
    (handleKeyPress now event s).character =
      { x := s.canvas.width / 2, y := s.canvas.height / 2 } := by
  have h : handleKeyPress now event s = resetGame now s := by
    simp only [handleKeyPress, hkey, hcode, hg, if_false, and_self, if_true]
  rw [h]
  exact ⟨rfl, rfl, rfl, rfl, rfl⟩

/-- Witness of C10, amended: the space bar after a game over with score 12 and
four projectiles. -/
theorem handleKeyPress_restart_witness :
    gameOverState.isGameOver = true ∧
    ({ key := " ", code := "Space" } : KeyboardEvent).code = "Space" ∧
    toLowerCase ({ key := " ", code := "Space" } : KeyboardEvent).key ≠ "s" ∧
    (handleKeyPress 13500 { key := " ", code := "Space" } gameOverState).score = 0 ∧
    (handleKeyPress 13500 { key := " ", code := "Space" } gameOverState).fireballs = [] ∧
    (handleKeyPress 13500 { key := " ", code := "Space" } gameOverState).isGameOver = false ∧
    (handleKeyPress 13500 { key := " ", code := "Space" } gameOverState).gameStartTime = 13500 ∧
    (handleKeyPress 13500 { key := " ", code := "Space" } gameOverState).character =
      { x := gameOverState.canvas.width / 2, y := gameOverState.canvas.height / 2 } :=
  ⟨rfl, rfl, by decide,
    handleKeyPress_restart 13500 { key := " ", code := "Space" } gameOverState rfl rfl
      (by decide)⟩

/-- C11: in a state with `isGameOver = false`, `handleKeyPress` on an event
with code "Space" and a key other than s/S returns the state unchanged: score,
`gameStartTime`, `isGameOver`, the character position, the projectile list and
the move intent are all as before. -/
theorem handleKeyPress_space_while_playing (now : Int) (event : KeyboardEvent) (s : State K)
    (hg : s.isGameOver = false) (hcode : event.code = "Space")
    (hkey : toLowerCase event.key ≠ "s") :
    handleKeyPress now event s = s := by
  simp only [handleKeyPress, hkey, hcode, hg, if_false, Bool.false_eq_true, and_false]

/-- Witness of C11: the space bar during play. -/
theorem handleKeyPress_space_while_playing_witness :
    sampleState.isGameOver = false ∧
    ({ key := " ", code := "Space" } : KeyboardEvent).code = "Space" ∧
    toLowerCase ({ key := " ", code := "Space" } : KeyboardEvent).key ≠ "s" ∧
    handleKeyPress 13500 { key := " ", code := "Space" } sampleState = sampleState :=
  ⟨rfl, rfl, by decide,
    handleKeyPress_space_while_playing 13500 { key := " ", code := "Space" } sampleState
      rfl rfl (by decide)⟩

/-! ### Score -/

/-- The floor of an integer number of milliseconds divided by 1000 is the
integer quotient. -/
theorem floor_intCast_div_thousand [FloorRing K] (a : Int) :
    ⌊(a : K) / 1000⌋ = a / 1000 := by
  rw [Int.floor_eq_iff]
  constructor
  · rw [le_div_iff₀ (by norm_num)]
    have h := Int.ediv_mul_le a (by norm_num : (1000 : Int) ≠ 0)
    exact_mod_cast h
  · rw [div_lt_iff₀ (by norm_num)]
    have h := Int.lt_ediv_add_one_mul_self a (by norm_num : (0 : Int) < 1000)
    exact_mod_cast h

/-- C12: when the current time is not before the session start, `updateScore`
sets the score to the floor of the elapsed milliseconds over 1000, a
non-negative integer `n` with `1000 * n ≤ now - start < 1000 * (n + 1)`; a
start at 0 and a current time of 5400 give score 5. -/
theorem updateScore_floor_seconds [FloorRing K] (now : Int) (s : State K)
    (h : s.gameStartTime ≤ now) :
    (updateScore now s).score = ⌊((now - s.gameStartTime : Int) : K) / 1000⌋ ∧
    (updateScore now s).score = (now - s.gameStartTime) / 1000 ∧
    0 ≤ (updateScore now s).score ∧
    1000 * (updateScore now s).score ≤ now - s.gameStartTime ∧
    now - s.gameStartTime < 1000 * ((updateScore now s).score + 1) ∧
    (updateScore 5400 { s with gameStartTime := 0 }).score = 5 := by
  have hs : ∀ (n : Int) (st : State K),
      (updateScore n st).score = (n - st.gameStartTime) / 1000 := fun n st =>
    floor_intCast_div_thousand (n - st.gameStartTime)
  refine ⟨rfl, hs now s, ?_, ?_, ?_, ?_⟩
  · rw [hs]; omega
  · rw [hs]; omega
  · rw [hs]; omega
  · rw [hs]; rfl

/-- Witness of C12: a session started at 0, read at 5400 ms. -/
theorem updateScore_floor_seconds_witness :
    sampleState.gameStartTime ≤ 5400 ∧
    (updateScore 5400 sampleState).score = ⌊((5400 - sampleState.gameStartTime : Int) : ℚ) / 1000⌋ ∧
    (updateScore 5400 sampleState).score = (5400 - sampleState.gameStartTime) / 1000 ∧
    0 ≤ (updateScore 5400 sampleState).score ∧
    1000 * (updateScore 5400 sampleState).score ≤ 5400 - sampleState.gameStartTime ∧
    5400 - sampleState.gameStartTime < 1000 * ((updateScore 5400 sampleState).score + 1) ∧
    (updateScore 5400 { sampleState with gameStartTime := 0 }).score = 5 :=
  ⟨by decide, updateScore_floor_seconds 5400 sampleState (by decide)⟩

/-! ### Frames -/

/-- `moveCharacter` neither reads nor writes `lastTimestamp`. -/
theorem moveCharacter_lastTimestamp (sqrt : K → K) (s : State K) (deltaTime : K)
    (l : Option K) :
    moveCharacter sqrt { s with lastTimestamp := l } deltaTime =
      { moveCharacter sqrt s deltaTime with lastTimestamp := l } := by
  simp only [moveCharacter]
  split_ifs <;> rfl

/-- `moveCharacter` leaves the projectile list and `isGameOver` as they are. -/
theorem moveCharacter_frame (sqrt : K → K) (s : State K) (deltaTime : K) :
    (moveCharacter sqrt s deltaTime).fireballs = s.fireballs ∧
    (moveCharacter sqrt s deltaTime).isGameOver = s.isGameOver := by
  simp only [moveCharacter]
  split_ifs <;> exact ⟨rfl, rfl⟩

/-- A frame of a running game is the composition of the five updates. -/
theorem gameLoop_of_playing [FloorRing K] (sqrt : K → K) (now : Int) (timestamp : K)
    (s : State K) (hg : s.isGameOver = false) :
    gameLoop sqrt now timestamp s =
      updateScore now (checkCollisions (moveFireballs (updateCamera
        (moveCharacter sqrt { s with lastTimestamp := some timestamp }
          (frameDeltaTime s timestamp))) (frameDeltaTime s timestamp))) := by
  simp only [gameLoop, frameDeltaTime, hg, Bool.not_false, if_true]
  by_cases hm : s.isMoving = true
  · simp only [hm, if_true]
  · have hm' : s.isMoving = false := by simpa using hm
    simp only [hm', Bool.false_eq_true, if_false]
    simp only [moveCharacter, hm', Bool.not_false, if_true]

/-- A frame of a finished game stores the timestamp and nothing else. -/
theorem gameLoop_of_game_over [FloorRing K] (sqrt : K → K) (now : Int) (timestamp : K)
    (s : State K) (hg : s.isGameOver = true) :
    gameLoop sqrt now timestamp s = { s with lastTimestamp := some timestamp } := by
  simp only [gameLoop, hg, Bool.not_true, Bool.false_eq_true, if_false]

/-- Any number of frames of a finished game change `lastTimestamp` only. -/
theorem gameLoop_frames_of_game_over [FloorRing K] (sqrt : K → K)
    (frames : List (K × Int)) (s : State K) (hg : s.isGameOver = true) :
    ∃ l : Option K,
      frames.foldl (fun st f => gameLoop sqrt f.2 f.1 st) s = { s with lastTimestamp := l } := by
  induction frames generalizing s with
  | nil => exact ⟨s.lastTimestamp, rfl⟩
  | cons f rest ih =>
    rw [List.foldl_cons, gameLoop_of_game_over sqrt f.2 f.1 s hg]
    obtain ⟨l, hl⟩ := ih { s with lastTimestamp := some f.1 } hg
    exact ⟨l, hl⟩

/-- C13: in a state with `isGameOver = true`, one `gameLoop` iteration changes
`lastTimestamp` only, whatever the timestamp and the wall-clock time; so after
any sequence of frames the score, `isGameOver`, `gameStartTime`, the character,
the projectiles, the camera and the move intent are what they were at game
over. -/
theorem gameLoop_frozen_when_game_over [FloorRing K] (sqrt : K → K) (now : Int)
    (timestamp : K) (s : State K) (hg : s.isGameOver = true) :
    gameLoop sqrt now timestamp s = { s with lastTimestamp := some timestamp } ∧
    ∀ frames : List (K × Int),
      { frames.foldl (fun st f => gameLoop sqrt f.2 f.1 st) s with
        lastTimestamp := s.lastTimestamp } = s := by
  refine ⟨gameLoop_of_game_over sqrt now timestamp s hg, fun frames => ?_⟩
  obtain ⟨l, hl⟩ := gameLoop_frames_of_game_over sqrt frames s hg
  rw [hl]

/-- Witness of C13: a frame at timestamp 10000 after a game over with score 12. -/
theorem gameLoop_frozen_when_game_over_witness :
    gameOverState.isGameOver = true ∧
    gameLoop Rat.sqrt 11000 10000 gameOverState =
      { gameOverState with lastTimestamp := some 10000 } ∧
    ∀ frames : List (ℚ × Int),
      { frames.foldl (fun st f => gameLoop Rat.sqrt f.2 f.1 st) gameOverState with
        lastTimestamp := gameOverState.lastTimestamp } = gameOverState :=
  ⟨rfl, gameLoop_frozen_when_game_over Rat.sqrt 11000 10000 gameOverState rfl⟩

/-! ### Camera, continued -/

theorem clamp_eq_self {a B : K} (h0 : 0 ≤ a) (h1 : a ≤ B) : max 0 (min a B) = a := by
  rw [min_eq_left h1, max_eq_right h0]

theorem clamp_eq_zero {a B : K} (hB : B < 0) : max 0 (min a B) = 0 :=
  max_eq_left ((min_le_right a B).trans hB.le)

/-- On one axis: a sprite of size 90 at `x` in `[0, M - 90]`, seen through a
viewport of size `w` in `[180, M]` whose offset is the clamped `x - w / 2`, is
drawn inside `[0, w]`. -/
theorem sprite_inside_viewport {x w M : K} (hx0 : 0 ≤ x) (hx1 : x ≤ M - 90)
    (hw0 : 180 ≤ w) (hw1 : w ≤ M) :
    0 ≤ x - max 0 (min (x - w / 2) (M - w)) ∧
    x - max 0 (min (x - w / 2) (M - w)) + 90 ≤ w := by
  rcases min_cases (x - w / 2) (M - w) with ⟨k, k'⟩ | ⟨k, k'⟩
  · rw [k]
    rcases max_cases 0 (x - w / 2) with ⟨h, h'⟩ | ⟨h, h'⟩ <;> rw [h] <;> constructor <;> linarith
  · rw [k]
    rcases max_cases 0 (M - w) with ⟨h, h'⟩ | ⟨h, h'⟩ <;> rw [h] <;> constructor <;> linarith

/-- C14, as stated, fails: with the character at (1000,700) on an 800 x 600
canvas no clamp bound is active, the camera is put at (600,400), and the
character's center minus half the viewport is (645,445). -/
theorem updateCamera_ignores_sprite_center :
    (0 < inlandState.character.x - inlandState.canvas.width / 2 ∧
      inlandState.character.x - inlandState.canvas.width / 2 <
        mapWidth - inlandState.canvas.width) ∧
    (0 < inlandState.character.x + character.width / 2 - inlandState.canvas.width / 2 ∧
      inlandState.character.x + character.width / 2 - inlandState.canvas.width / 2 <
        mapWidth - inlandState.canvas.width) ∧
    (0 < inlandState.character.y - inlandState.canvas.height / 2 ∧
      inlandState.character.y - inlandState.canvas.height / 2 <
        mapHeight - inlandState.canvas.height) ∧
    (0 < inlandState.character.y + character.height / 2 - inlandState.canvas.height / 2 ∧
      inlandState.character.y + character.height / 2 - inlandState.canvas.height / 2 <
        mapHeight - inlandState.canvas.height) ∧
    (updateCamera inlandState).cameraX = 600 ∧ (updateCamera inlandState).cameraY = 400 ∧
    (updateCamera inlandState).cameraX ≠
      inlandState.character.x + character.width / 2 - inlandState.canvas.width / 2 ∧
    (updateCamera inlandState).cameraY ≠
      inlandState.character.y + character.height / 2 - inlandState.canvas.height / 2 := by
  have hx : (updateCamera inlandState).cameraX = 600 := by
    norm_num [updateCamera, inlandState, sampleState, mapWidth]
  have hy : (updateCamera inlandState).cameraY = 400 := by
    norm_num [updateCamera, inlandState, sampleState, mapHeight]
  rw [hx, hy]
  refine ⟨?_, ?_, ?_, ?_, rfl, rfl, ?_, ?_⟩
  · norm_num [inlandState, sampleState, mapWidth]
  · norm_num [inlandState, sampleState, mapWidth, character.width]
  · norm_num [inlandState, sampleState, mapHeight]
  · norm_num [inlandState, sampleState, mapHeight, character.height]
  · norm_num [inlandState, sampleState, character.width]
  · norm_num [inlandState, sampleState, character.height]

/-- C14, amended: when neither clamp bound is active, `updateCamera` places the
camera top-left at the character position (the top-left corner of its sprite)
minus half the viewport. -/
theorem updateCamera_unclamped (s : State K)
    (hx0 : 0 ≤ s.character.x - s.canvas.width / 2)
    (hx1 : s.character.x - s.canvas.width / 2 ≤ mapWidth - s.canvas.width)
    (hy0 : 0 ≤ s.character.y - s.canvas.height / 2)
    (hy1 : s.character.y - s.canvas.height / 2 ≤ mapHeight - s.canvas.height) :
    (updateCamera s).cameraX = s.character.x - s.canvas.width / 2 ∧
    (updateCamera s).cameraY = s.character.y - s.canvas.height / 2 :=
  ⟨clamp_eq_self hx0 hx1, clamp_eq_self hy0 hy1⟩

/-- Witness of C14, amended: the character at (1000,700) on an 800 x 600 canvas. -/
theorem updateCamera_unclamped_witness :
    0 ≤ inlandState.character.x - inlandState.canvas.width / 2 ∧
    inlandState.character.x - inlandState.canvas.width / 2 ≤
      mapWidth - inlandState.canvas.width ∧
    0 ≤ inlandState.character.y - inlandState.canvas.height / 2 ∧
    inlandState.character.y - inlandState.canvas.height / 2 ≤
      mapHeight - inlandState.canvas.height ∧
    (updateCamera inlandState).cameraX =
      inlandState.character.x - inlandState.canvas.width / 2 ∧
    (updateCamera inlandState).cameraY =
      inlandState.character.y - inlandState.canvas.height / 2 :=
  have hx0 : 0 ≤ inlandState.character.x - inlandState.canvas.width / 2 := by
    norm_num [inlandState, sampleState]
  have hx1 : inlandState.character.x - inlandState.canvas.width / 2 ≤
      mapWidth - inlandState.canvas.width := by
    norm_num [inlandState, sampleState, mapWidth]
  have hy0 : 0 ≤ inlandState.character.y - inlandState.canvas.height / 2 := by
    norm_num [inlandState, sampleState]
  have hy1 : inlandState.character.y - inlandState.canvas.height / 2 ≤
      mapHeight - inlandState.canvas.height := by
    norm_num [inlandState, sampleState, mapHeight]
  ⟨hx0, hx1, hy0, hy1, updateCamera_unclamped inlandState hx0 hx1 hy0 hy1⟩

/-- C15: when the canvas is wider than the map `updateCamera` sets `cameraX` to
0, when it is taller than the map it sets `cameraY` to 0, and in every case
both camera offsets are non-negative. -/
theorem updateCamera_oversized_canvas (s : State K) :
    (mapWidth < s.canvas.width → (updateCamera s).cameraX = 0) ∧
    (mapHeight < s.canvas.height → (updateCamera s).cameraY = 0) ∧
    0 ≤ (updateCamera s).cameraX ∧ 0 ≤ (updateCamera s).cameraY :=
  ⟨fun h => clamp_eq_zero (sub_neg.mpr h), fun h => clamp_eq_zero (sub_neg.mpr h),
    le_max_left _ _, le_max_left _ _⟩

/-- Witness of C15: a 3000 x 2000 canvas over the 2000 x 1500 map. -/
theorem updateCamera_oversized_canvas_witness :
    mapWidth < oversizedState.canvas.width ∧ mapHeight < oversizedState.canvas.height ∧
    (updateCamera oversizedState).cameraX = 0 ∧ (updateCamera oversizedState).cameraY = 0 ∧
    0 ≤ (updateCamera oversizedState).cameraX ∧ 0 ≤ (updateCamera oversizedState).cameraY :=
  have hw : mapWidth < oversizedState.canvas.width := by
    norm_num [oversizedState, sampleState, mapWidth]
  have hh : mapHeight < oversizedState.canvas.height := by
    norm_num [oversizedState, sampleState, mapHeight]
  ⟨hw, hh, (updateCamera_oversized_canvas oversizedState).1 hw,
    (updateCamera_oversized_canvas oversizedState).2.1 hh,
    (updateCamera_oversized_canvas oversizedState).2.2⟩

/-- C20: with the character in its range and a viewport at least 180 wide and
high and no larger than the map, the rectangle in which `gameLoop` draws the
character after `updateCamera` (game.js 108-114) lies inside the viewport. -/
theorem character_drawn_inside_viewport (s : State K)
    (hx : 0 ≤ s.character.x ∧ s.character.x ≤ mapWidth - 90)
    (hy : 0 ≤ s.character.y ∧ s.character.y ≤ mapHeight - 90)
    (hw : 180 ≤ s.canvas.width ∧ s.canvas.width ≤ mapWidth)
    (hh : 180 ≤ s.canvas.height ∧ s.canvas.height ≤ mapHeight) :
    0 ≤ (updateCamera s).character.x - (updateCamera s).cameraX ∧
    (updateCamera s).character.x - (updateCamera s).cameraX + 90 ≤
      (updateCamera s).canvas.width ∧
    0 ≤ (updateCamera s).character.y - (updateCamera s).cameraY ∧
    (updateCamera s).character.y - (updateCamera s).cameraY + 90 ≤
      (updateCamera s).canvas.height :=
  have h1 := sprite_inside_viewport hx.1 hx.2 hw.1 hw.2
  have h2 := sprite_inside_viewport hy.1 hy.2 hh.1 hh.2
  ⟨h1.1, h1.2, h2.1, h2.2⟩

/-- Witness of C20: the character at (400,300) on the 800 x 600 canvas. -/
theorem character_drawn_inside_viewport_witness :
    (0 ≤ sampleState.character.x ∧ sampleState.character.x ≤ mapWidth - 90) ∧
    (0 ≤ sampleState.character.y ∧ sampleState.character.y ≤ mapHeight - 90) ∧
    (180 ≤ sampleState.canvas.width ∧ sampleState.canvas.width ≤ mapWidth) ∧
    (180 ≤ sampleState.canvas.height ∧ sampleState.canvas.height ≤ mapHeight) ∧
    0 ≤ (updateCamera sampleState).character.x - (updateCamera sampleState).cameraX ∧
    (updateCamera sampleState).character.x - (updateCamera sampleState).cameraX + 90 ≤
      (updateCamera sampleState).canvas.width ∧
    0 ≤ (updateCamera sampleState).character.y - (updateCamera sampleState).cameraY ∧
    (updateCamera sampleState).character.y - (updateCamera sampleState).cameraY + 90 ≤
      (updateCamera sampleState).canvas.height :=
  have hx : 0 ≤ sampleState.character.x ∧ sampleState.character.x ≤ mapWidth - 90 := by
    norm_num [sampleState, mapWidth]
  have hy : 0 ≤ sampleState.character.y ∧ sampleState.character.y ≤ mapHeight - 90 := by
    norm_num [sampleState, mapHeight]
  have hw : 180 ≤ sampleState.canvas.width ∧ sampleState.canvas.width ≤ mapWidth := by
    norm_num [sampleState, mapWidth]
  have hh : 180 ≤ sampleState.canvas.height ∧ sampleState.canvas.height ≤ mapHeight := by
    norm_num [sampleState, mapHeight]
  ⟨hx, hy, hw, hh, character_drawn_inside_viewport sampleState hx hy hw hh⟩

/-! ### Spawning, continued -/

/-- A square root of a value that is at least the square of `a ≥ 1/2` is at
least 1/2. -/
theorem half_le_sqrt {sqrt : K → K} {v a : K} (hs : IsSqrtAt sqrt v) (ha : 1 / 2 ≤ a)
    (hav : a * a ≤ v) : 1 / 2 ≤ sqrt v := by
  obtain ⟨h0, h1⟩ := hs
  by_contra hcon
  have h2 : sqrt v < 1 / 2 := not_le.mp hcon
  nlinarith

/-- C16: for draws in `[0,1)` the side index of `createFireball` is 0, 1, 2 or
3, the `switch` assigns `x, y, dx, dy`, and the length by which the direction
is divided is at least 1/2, hence not zero; the projectile is appended. -/
theorem createFireball_length_ge_half [FloorRing K] (sqrt : K → K) (r0 r1 r2 r3 : K)
    (s : State K) (h0 : 0 ≤ r0 ∧ r0 < 1) (_h1 : 0 ≤ r1 ∧ r1 < 1) (h2 : 0 ≤ r2 ∧ r2 < 1)
    (h3 : 0 ≤ r3 ∧ r3 < 1)
    (hs : ∀ x y dx dy : K, spawn ⌊r0 * 4⌋ r1 r2 r3 = some (x, y, dx, dy) →
      IsSqrtAt sqrt (dx * dx + dy * dy)) :
    (⌊r0 * 4⌋ = 0 ∨ ⌊r0 * 4⌋ = 1 ∨ ⌊r0 * 4⌋ = 2 ∨ ⌊r0 * 4⌋ = 3) ∧
    ∃ x y dx dy : K, spawn ⌊r0 * 4⌋ r1 r2 r3 = some (x, y, dx, dy) ∧
      1 / 2 ≤ sqrt (dx * dx + dy * dy) ∧ sqrt (dx * dx + dy * dy) ≠ 0 ∧
      createFireball sqrt r0 r1 r2 r3 s =
        some { s with fireballs := s.fireballs ++
          [{ x := x, y := y, dx := dx / sqrt (dx * dx + dy * dy),
             dy := dy / sqrt (dx * dx + dy * dy) }] } := by
  refine ⟨floor_side h0.1 h0.2, ?_⟩
  obtain ⟨x, y, dx, dy, hsp, ha, _, hlb, _⟩ :=
    spawn_direction (floor_side h0.1 h0.2) r1 h2.1 h2.2 h3.1 h3.2
  have hl : 1 / 2 ≤ sqrt (dx * dx + dy * dy) := half_le_sqrt (hs x y dx dy hsp) ha hlb
  exact ⟨x, y, dx, dy, hsp, hl, ne_of_gt (lt_of_lt_of_le (by norm_num) hl),
    createFireball_of_spawn sqrt r0 r1 r2 r3 s hsp⟩

/-- Witness of C16: the right edge, with the direction (-1/2, 0) before
normalization. -/
theorem createFireball_length_ge_half_witness :
    ((0 : ℚ) ≤ 1 / 4 ∧ (1 / 4 : ℚ) < 1) ∧ ((0 : ℚ) ≤ 1 / 2 ∧ (1 / 2 : ℚ) < 1) ∧
    ((0 : ℚ) ≤ 0 ∧ (0 : ℚ) < 1) ∧ ((0 : ℚ) ≤ 1 / 2 ∧ (1 / 2 : ℚ) < 1) ∧
    (∀ x y dx dy : ℚ, spawn ⌊(1 / 4 : ℚ) * 4⌋ (1 / 2) 0 (1 / 2) = some (x, y, dx, dy) →
      IsSqrtAt Rat.sqrt (dx * dx + dy * dy)) ∧
    (⌊(1 / 4 : ℚ) * 4⌋ = 0 ∨ ⌊(1 / 4 : ℚ) * 4⌋ = 1 ∨ ⌊(1 / 4 : ℚ) * 4⌋ = 2 ∨
      ⌊(1 / 4 : ℚ) * 4⌋ = 3) ∧
    ∃ x y dx dy : ℚ, spawn ⌊(1 / 4 : ℚ) * 4⌋ (1 / 2) 0 (1 / 2) = some (x, y, dx, dy) ∧
      1 / 2 ≤ Rat.sqrt (dx * dx + dy * dy) ∧ Rat.sqrt (dx * dx + dy * dy) ≠ 0 ∧
      createFireball Rat.sqrt (1 / 4) (1 / 2) 0 (1 / 2) sampleState =
        some { sampleState with fireballs := sampleState.fireballs ++
          [{ x := x, y := y, dx := dx / Rat.sqrt (dx * dx + dy * dy),
             dy := dy / Rat.sqrt (dx * dx + dy * dy) }] } :=
  have hs : ∀ x y dx dy : ℚ, spawn ⌊(1 / 4 : ℚ) * 4⌋ (1 / 2) 0 (1 / 2) = some (x, y, dx, dy) →
      IsSqrtAt Rat.sqrt (dx * dx + dy * dy) := by
    intro x y dx dy h
    have hfl : ⌊(1 / 4 : ℚ) * 4⌋ = 1 := by norm_num
    rw [hfl] at h
    simp only [spawn, Option.some.injEq, Prod.mk.injEq] at h
    obtain ⟨_, _, rfl, rfl⟩ := h
    exact isSqrtAt_rat_sqrt (q := 1 / 2) (by norm_num) (by norm_num)
  ⟨by norm_num, by norm_num, by norm_num, by norm_num, hs,
    createFireball_length_ge_half Rat.sqrt (1 / 4) (1 / 2) 0 (1 / 2) sampleState
      (by norm_num) (by norm_num) (by norm_num) (by norm_num) hs⟩

/-- C17: for draws in `[0,1)` the direction stored in the projectile that
`createFireball` appends points strictly into the map: `dy > 0` on the top
edge, `dx < 0` on the right edge, `dy < 0` on the bottom edge and `dx > 0` on
the left edge; it is never parallel to the edge. -/
theorem createFireball_drifts_inward [FloorRing K] (sqrt : K → K) (r0 r1 r2 r3 : K)
    (s : State K) (h0 : 0 ≤ r0 ∧ r0 < 1) (_h1 : 0 ≤ r1 ∧ r1 < 1) (h2 : 0 ≤ r2 ∧ r2 < 1)
    (h3 : 0 ≤ r3 ∧ r3 < 1)
    (hs : ∀ x y dx dy : K, spawn ⌊r0 * 4⌋ r1 r2 r3 = some (x, y, dx, dy) →
      IsSqrtAt sqrt (dx * dx + dy * dy)) :
    ∃ fb : Fireball K,
      createFireball sqrt r0 r1 r2 r3 s = some { s with fireballs := s.fireballs ++ [fb] } ∧
      ((⌊r0 * 4⌋ = 0 ∧ 0 < fb.dy) ∨ (⌊r0 * 4⌋ = 1 ∧ fb.dx < 0) ∨
       (⌊r0 * 4⌋ = 2 ∧ fb.dy < 0) ∨ (⌊r0 * 4⌋ = 3 ∧ 0 < fb.dx)) := by
  obtain ⟨x, y, dx, dy, hsp, ha, _, hlb, hdiv⟩ :=
    spawn_direction (floor_side h0.1 h0.2) r1 h2.1 h2.2 h3.1 h3.2
  refine ⟨_, createFireball_of_spawn sqrt r0 r1 r2 r3 s hsp, ?_⟩
  have hl : 0 < sqrt (dx * dx + dy * dy) :=
    lt_of_lt_of_le (by norm_num) (half_le_sqrt (hs x y dx dy hsp) ha hlb)
  have hpos : 0 < inward ⌊r0 * 4⌋ (dx / sqrt (dx * dx + dy * dy))
      (dy / sqrt (dx * dx + dy * dy)) := by
    rw [hdiv]
    exact div_pos (lt_of_lt_of_le (by norm_num) ha) hl
  rcases floor_side h0.1 h0.2 with h | h | h | h <;> rw [h] at hpos <;>
    simp only [inward] at hpos
  · exact Or.inl ⟨h, hpos⟩
  · exact Or.inr (Or.inl ⟨h, neg_pos.mp hpos⟩)
  · exact Or.inr (Or.inr (Or.inl ⟨h, neg_pos.mp hpos⟩))
  · exact Or.inr (Or.inr (Or.inr ⟨h, hpos⟩))

/-- Witness of C17: the top edge, with the direction (-15/16, 1/2) before
normalization. -/
theorem createFireball_drifts_inward_witness :
    ((0 : ℚ) ≤ 0 ∧ (0 : ℚ) < 1) ∧ ((0 : ℚ) ≤ 0 ∧ (0 : ℚ) < 1) ∧
    ((0 : ℚ) ≤ 1 / 32 ∧ (1 / 32 : ℚ) < 1) ∧ ((0 : ℚ) ≤ 0 ∧ (0 : ℚ) < 1) ∧
    (∀ x y dx dy : ℚ, spawn ⌊(0 : ℚ) * 4⌋ 0 (1 / 32) 0 = some (x, y, dx, dy) →
      IsSqrtAt Rat.sqrt (dx * dx + dy * dy)) ∧
    ∃ fb : Fireball ℚ,
      createFireball Rat.sqrt 0 0 (1 / 32) 0 sampleState =
        some { sampleState with fireballs := sampleState.fireballs ++ [fb] } ∧
      ((⌊(0 : ℚ) * 4⌋ = 0 ∧ 0 < fb.dy) ∨ (⌊(0 : ℚ) * 4⌋ = 1 ∧ fb.dx < 0) ∨
       (⌊(0 : ℚ) * 4⌋ = 2 ∧ fb.dy < 0) ∨ (⌊(0 : ℚ) * 4⌋ = 3 ∧ 0 < fb.dx)) :=
  have hs : ∀ x y dx dy : ℚ, spawn ⌊(0 : ℚ) * 4⌋ 0 (1 / 32) 0 = some (x, y, dx, dy) →
      IsSqrtAt Rat.sqrt (dx * dx + dy * dy) := by
    intro x y dx dy h
    have hfl : ⌊(0 : ℚ) * 4⌋ = 0 := by norm_num
    rw [hfl] at h
    simp only [spawn, Option.some.injEq, Prod.mk.injEq] at h
    obtain ⟨_, _, rfl, rfl⟩ := h
    exact isSqrtAt_rat_sqrt (q := 17 / 16) (by norm_num) (by norm_num)
  ⟨by norm_num, by norm_num, by norm_num, by norm_num, hs,
    createFireball_drifts_inward Rat.sqrt 0 0 (1 / 32) 0 sampleState
      (by norm_num) (by norm_num) (by norm_num) (by norm_num) hs⟩

/-! ### Character motion, continued -/

/-- After a step of ratio `r` from a point at distance `d` of the target, with
`r * d = m`, the squared distance to the target is the square of `d - m`. -/
theorem step_distSq_eq {x y tx ty r d m : K}
    (hd : d * d = (tx - x) * (tx - x) + (ty - y) * (ty - y)) (hr : r * d = m) :
    (tx - (x + (tx - x) * r)) * (tx - (x + (tx - x) * r)) +
      (ty - (y + (ty - y) * r)) * (ty - (y + (ty - y) * r)) = (d - m) * (d - m) := by
  subst hr
  calc (tx - (x + (tx - x) * r)) * (tx - (x + (tx - x) * r)) +
        (ty - (y + (ty - y) * r)) * (ty - (y + (ty - y) * r))
      = (1 - r) * (1 - r) * ((tx - x) * (tx - x) + (ty - y) * (ty - y)) := by ring
    _ = (1 - r) * (1 - r) * (d * d) := by rw [hd]
    _ = (d - r * d) * (d - r * d) := by ring

/-- C18: when a move is in progress, the character and the target are both in
the character's range, the distance `d` to the target is at least 1 and the
step `speed * deltaTime` is between 0 and `d`, one call of `moveCharacter`
puts the character at the unclamped point of the line to the target, at
distance `d - speed * deltaTime` of the target, and keeps `isMoving` true. -/
theorem moveCharacter_exact_step (sqrt : K → K) (s : State K) (deltaTime : K)
    (hm : s.isMoving = true) (hc : inBounds s.character)
    (ht : inBounds ({ x := s.targetX, y := s.targetY } : Character K))
    (hs : IsSqrtAt sqrt (distSq s)) (hd : 1 ≤ sqrt (distSq s))
    (h0 : 0 ≤ character.speed * deltaTime)
    (h1 : character.speed * deltaTime ≤ sqrt (distSq s)) :
    (moveCharacter sqrt s deltaTime).character.x =
      s.character.x + (s.targetX - s.character.x) *
        (character.speed * deltaTime / sqrt (distSq s)) ∧
    (moveCharacter sqrt s deltaTime).character.y =
      s.character.y + (s.targetY - s.character.y) *
        (character.speed * deltaTime / sqrt (distSq s)) ∧
    0 ≤ sqrt (distSq s) - character.speed * deltaTime ∧
    distSq (moveCharacter sqrt s deltaTime) =
      (sqrt (distSq s) - character.speed * deltaTime) *
        (sqrt (distSq s) - character.speed * deltaTime) ∧
    (moveCharacter sqrt s deltaTime).isMoving = true := by
  have hpos : 0 < sqrt (distSq s) := lt_of_lt_of_le one_pos hd
  have hrd : character.speed * deltaTime / sqrt (distSq s) * sqrt (distSq s) =
      character.speed * deltaTime := div_mul_cancel₀ _ (ne_of_gt hpos)
  have hdd : sqrt (distSq s) * sqrt (distSq s) =
      (s.targetX - s.character.x) * (s.targetX - s.character.x) +
        (s.targetY - s.character.y) * (s.targetY - s.character.y) := hs.2
  rw [moveCharacter_of_one_le sqrt s deltaTime hm hd]
  generalize character.speed * deltaTime / sqrt (distSq s) = r at hrd ⊢
  have hr0 : 0 ≤ r := by
    by_contra hcon
    have : r * sqrt (distSq s) < 0 := mul_neg_of_neg_of_pos (not_le.mp hcon) hpos
    linarith
  have hr1 : r ≤ 1 := by
    by_contra hcon
    have : 1 * sqrt (distSq s) < r * sqrt (distSq s) :=
      mul_lt_mul_of_pos_right (not_le.mp hcon) hpos
    linarith
  obtain ⟨hx0, hx1, hy0, hy1⟩ := hc
  obtain ⟨htx0, htx1, hty0, hty1⟩ := ht
  simp only at htx0 htx1 hty0 hty1
  obtain ⟨ex0, ex1⟩ := step_in_range hr0 hr1 hx0 hx1 htx0 htx1
  obtain ⟨ey0, ey1⟩ := step_in_range hr0 hr1 hy0 hy1 hty0 hty1
  rw [min_eq_left ex1, min_eq_left ey1, max_eq_right ex0, max_eq_right ey0]
  exact ⟨rfl, rfl, sub_nonneg.mpr h1, step_distSq_eq hdd hrd, hm⟩

/-- Witness of C18: a step of 50 towards a target at distance 500. -/
theorem moveCharacter_exact_step_witness :
    seekingState.isMoving = true ∧ inBounds seekingState.character ∧
    inBounds ({ x := seekingState.targetX, y := seekingState.targetY } : Character ℚ) ∧
    IsSqrtAt Rat.sqrt (distSq seekingState) ∧ 1 ≤ Rat.sqrt (distSq seekingState) ∧
    (0 : ℚ) ≤ character.speed * (1 / 4) ∧
    character.speed * (1 / 4) ≤ Rat.sqrt (distSq seekingState) ∧
    (moveCharacter Rat.sqrt seekingState (1 / 4)).character.x =
      seekingState.character.x + (seekingState.targetX - seekingState.character.x) *
        (character.speed * (1 / 4) / Rat.sqrt (distSq seekingState)) ∧
    (moveCharacter Rat.sqrt seekingState (1 / 4)).character.y =
      seekingState.character.y + (seekingState.targetY - seekingState.character.y) *
        (character.speed * (1 / 4) / Rat.sqrt (distSq seekingState)) ∧
    0 ≤ Rat.sqrt (distSq seekingState) - character.speed * (1 / 4) ∧
    distSq (moveCharacter Rat.sqrt seekingState (1 / 4)) =
      (Rat.sqrt (distSq seekingState) - character.speed * (1 / 4)) *
        (Rat.sqrt (distSq seekingState) - character.speed * (1 / 4)) ∧
    (moveCharacter Rat.sqrt seekingState (1 / 4)).isMoving = true :=
  have hs : IsSqrtAt Rat.sqrt (distSq seekingState) :=
    isSqrtAt_rat_sqrt (q := 500) (by norm_num) distSq_seekingState
  have hd : 1 ≤ Rat.sqrt (distSq seekingState) := by
    rw [sqrt_distSq_seekingState]; norm_num
  have h0 : (0 : ℚ) ≤ character.speed * (1 / 4) := by norm_num [character.speed]
  have h1 : character.speed * (1 / 4) ≤ Rat.sqrt (distSq seekingState) := by
    rw [sqrt_distSq_seekingState]; norm_num [character.speed]
  ⟨rfl, inBounds_seekingState.1, inBounds_seekingState.2, hs, hd, h0, h1,
    moveCharacter_exact_step Rat.sqrt seekingState (1 / 4) rfl inBounds_seekingState.1
      inBounds_seekingState.2 hs hd h0 h1⟩

/-! ### Frames, continued -/

/-- C19: one `gameLoop` iteration of a running game moves the character,
recomputes the camera, advances the projectiles and checks collisions, in this
order (then updates the score); `isGameOver` is true after it exactly when a
projectile that is still within the margin after its advance overlaps, at its
advanced position, the character at its position after `moveCharacter`. -/
theorem gameLoop_isGameOver_iff [FloorRing K] (sqrt : K → K) (now : Int) (timestamp : K)
    (s : State K) (hg : s.isGameOver = false) :
    gameLoop sqrt now timestamp s =
      updateScore now (checkCollisions (moveFireballs (updateCamera
        (moveCharacter sqrt { s with lastTimestamp := some timestamp }
          (frameDeltaTime s timestamp))) (frameDeltaTime s timestamp))) ∧
    ((gameLoop sqrt now timestamp s).isGameOver = true ↔
      ∃ fb ∈ s.fireballs, withinMargin (advanced (frameDeltaTime s timestamp) fb) ∧
        overlaps (moveCharacter sqrt s (frameDeltaTime s timestamp)).character
          (advanced (frameDeltaTime s timestamp) fb) = true) := by
  refine ⟨gameLoop_of_playing sqrt now timestamp s hg, ?_⟩
  rw [gameLoop_of_playing sqrt now timestamp s hg, moveCharacter_lastTimestamp]
  obtain ⟨hf, ho⟩ := moveCharacter_frame sqrt s (frameDeltaTime s timestamp)
  simp only [updateScore, checkCollisions, moveFireballs, updateCamera, hf, ho, hg,
    checkCollisionsLoop_eq_true, filterMap_moveFireball, List.mem_filter, List.mem_map,
    decide_eq_true_eq, Bool.false_eq_true, false_or]
  constructor
  · rintro ⟨fb', ⟨⟨fb, hmem, rfl⟩, hw⟩, hov⟩
    exact ⟨fb, hmem, hw, hov⟩
  · rintro ⟨fb, hmem, hw, hov⟩
    exact ⟨_, ⟨⟨fb, hmem, rfl⟩, hw⟩, hov⟩

/-- Witness of C19: a frame at timestamp 1100 of a running game whose stored
timestamp is 1000. -/
theorem gameLoop_isGameOver_iff_witness :
    contestedState.isGameOver = false ∧
    gameLoop Rat.sqrt 5400 1100 contestedState =
      updateScore 5400 (checkCollisions (moveFireballs (updateCamera
        (moveCharacter Rat.sqrt { contestedState with lastTimestamp := some 1100 }
          (frameDeltaTime contestedState 1100))) (frameDeltaTime contestedState 1100))) ∧
    ((gameLoop Rat.sqrt 5400 1100 contestedState).isGameOver = true ↔
      ∃ fb ∈ contestedState.fireballs,
        withinMargin (advanced (frameDeltaTime contestedState 1100) fb) ∧
        overlaps (moveCharacter Rat.sqrt contestedState
            (frameDeltaTime contestedState 1100)).character
          (advanced (frameDeltaTime contestedState 1100) fb) = true) :=
  ⟨rfl, gameLoop_isGameOver_iff Rat.sqrt 5400 1100 contestedState rfl⟩

end Theorems

end Game
